import Mathlib

/-!
Shallow embedding of the vote admission & consistency engine of
github.com/behzadon/vote, and proofs about it.

The embedding follows the Go source:
 * `internal/service` (service.VoteOnPoll, SkipPoll, UpdateVote, DeleteVote,
   GetPollStats) — the Vote/Skip Ledger and its cache/notifier interaction;
 * `internal/postgres` (Repository.CreateVote, CreateSkip, HasVoted,
   GetUserDailyVoteCount, IncrementUserDailyVoteCount, GetPollStats,
   UpdateVote, DeleteVote, cache accessors) together with the uniqueness
   and foreign-key constraints of `migrations/000001_init_schema.sql`;
 * `internal/api` (RateLimiter.RateLimit and RateLimiter.BurstLimit) over a
   model of the Redis counter store with values and absolute expiry times.

Conventions: UUIDs are modelled as `Nat`; times and counter values as `Int`
(Go `int64`); Redis keys and URL paths as `List Char` (Go strings, compared
bytewise).  The `users` table and its foreign keys are not modelled: no
claim concerns a missing user.  The poll-object cache (`GetCachedPoll` /
`SetCachedPoll`) is not modelled separately: polls and options are immutable
after creation in this codebase, so a cached poll object always coincides
with the durable one; the stats cache, which can genuinely diverge, is
modelled explicitly.  Best-effort failures of the stats cache and of the
event publisher are injected through explicit `Flags`; `service` swallows
those failures (it only logs), which the embedding mirrors by skipping the
corresponding state change.
-/

namespace VoteEngine

/-- An option row of `poll_options` (domain.Option). -/
structure Opt where
  id : Nat
  pollId : Nat
  text : String
  index : Nat
deriving DecidableEq

instance : Inhabited Opt := ⟨⟨0, 0, "", 0⟩⟩

/-- A poll together with its ordered option list (domain.Poll; options are
returned ordered by creation, i.e. by index). -/
structure Poll where
  id : Nat
  title : String
  options : List Opt
deriving DecidableEq

/-- A row of `votes` (domain.Vote). -/
structure Vote where
  id : Nat
  pollId : Nat
  userId : Nat
  optionId : Nat
deriving DecidableEq

instance : Inhabited Vote := ⟨⟨0, 0, 0, 0⟩⟩

/-- A row of `skips` (domain.Skip). -/
structure Skip where
  id : Nat
  pollId : Nat
  userId : Nat
deriving DecidableEq

/-- One aggregate line of poll statistics (domain.OptionStats). -/
structure OptionStats where
  option : String
  count : Nat
deriving DecidableEq

/-- Aggregate statistics of a poll (domain.PollStats). -/
structure PollStats where
  pollId : Nat
  votes : List OptionStats
deriving DecidableEq

/-- A fact handed to the change notifier (events.Publisher). -/
inductive Fact where
  | pollVoted (pollId userId optionId : Nat)
  | pollVoteUpdated (voteId pollId userId optionId : Nat)
  | pollVoteDeleted (voteId pollId userId optionId : Nat)
  | pollSkipped (pollId userId : Nat)
deriving DecidableEq

/-- The durable store (Postgres tables), the stats read-cache and the stream
of published facts, plus a fresh-id source standing in for uuid.New(). -/
structure Store where
  polls : List Poll
  votes : List Vote
  skips : List Skip
  /-- `user_daily_votes`: ((user_id, vote_date), vote_count). -/
  dailyVotes : List ((Nat × Nat) × Nat)
  /-- Redis `poll:stats:<id>` entries. -/
  statsCache : List (Nat × PollStats)
  /-- Facts published so far. -/
  events : List Fact
  nextId : Nat
deriving DecidableEq

/-- Error taxonomy (internal/domain errors; `internal` stands for any
wrapped backing-store error that is none of the named domain errors). -/
inductive Err where
  | notFound
  | alreadyVoted
  | alreadySkipped
  | invalidOption
  | dailyVoteLimitExceeded
  | unauthorized
  | invalidInput
  | internal
deriving DecidableEq

/-- domain.MaxDailyVotes. -/
def MaxDailyVotes : Nat := 100

/-- Best-effort failure injection for the stats cache and the publisher. -/
structure Flags where
  cacheFails : Bool
  publishFails : Bool
deriving DecidableEq

/-- No injected failures. -/
def noFail : Flags := ⟨false, false⟩

/-! ### Repository layer (internal/postgres/repository) -/

/-- Repository.HasVoted: `EXISTS (SELECT 1 FROM votes WHERE poll_id AND user_id)`. -/
def hasVoted (s : Store) (pollId userId : Nat) : Bool :=
  s.votes.any (fun v => v.pollId == pollId && v.userId == userId)

/-- Repository.HasSkipped. -/
def hasSkipped (s : Store) (pollId userId : Nat) : Bool :=
  s.skips.any (fun k => k.pollId == pollId && k.userId == userId)

/-- Repository.GetPollByID (cache-transparent: polls are immutable, so the
poll-object cache never diverges from the durable row). -/
def getPollByID (s : Store) (id : Nat) : Except Err Poll :=
  match s.polls.find? (fun p => p.id == id) with
  | some p => .ok p
  | none => .error .notFound

/-- Repository.GetUserDailyVoteCount: a missing `user_daily_votes` row reads
as zero. -/
def getUserDailyVoteCount (s : Store) (userId date : Nat) : Nat :=
  match s.dailyVotes.find? (fun e => e.1 == (userId, date)) with
  | some e => e.2
  | none => 0

/-- Repository.IncrementUserDailyVoteCount: upsert with
`vote_count = vote_count + 1` on conflict.  (Declared in the Repository
interface and implemented, but — as proved below — never invoked by the
service's vote path.) -/
def incrementUserDailyVoteCount (s : Store) (userId date : Nat) : Store :=
  if s.dailyVotes.any (fun e => e.1 == (userId, date)) then
    { s with dailyVotes :=
        s.dailyVotes.map (fun e => if e.1 == (userId, date) then (e.1, e.2 + 1) else e) }
  else
    { s with dailyVotes := s.dailyVotes ++ [((userId, date), 1)] }

/-- Does an option row with this id exist (FK target of votes.option_id)? -/
def optionExists (s : Store) (optionId : Nat) : Bool :=
  s.polls.any (fun p => p.options.any (fun o => o.id == optionId))

/-- Does a poll row with this id exist (FK target of poll_id)? -/
def pollExists (s : Store) (pollId : Nat) : Bool :=
  s.polls.any (fun p => p.id == pollId)

/-- Repository.CreateVote: plain INSERT into `votes`.  The unique
constraint `(poll_id, user_id)` rejects a duplicate, which the repository
translates to ErrAlreadyVoted (pq code 23505); a violated foreign key is a
distinct pq error that is wrapped and surfaces as a generic error. -/
def createVote (s : Store) (pollId userId optionId : Nat) : Except Err Store :=
  if hasVoted s pollId userId then .error .alreadyVoted
  else if !(pollExists s pollId && optionExists s optionId) then .error .internal
  else .ok { s with
    votes := s.votes ++ [⟨s.nextId, pollId, userId, optionId⟩],
    nextId := s.nextId + 1 }

/-- Repository.CreateSkip: plain INSERT into `skips`; duplicate (23505) →
ErrAlreadySkipped, violated poll FK (23503) → generic wrapped error. -/
def createSkip (s : Store) (pollId userId : Nat) : Except Err Store :=
  if hasSkipped s pollId userId then .error .alreadySkipped
  else if !(pollExists s pollId) then .error .internal
  else .ok { s with
    skips := s.skips ++ [⟨s.nextId, pollId, userId⟩],
    nextId := s.nextId + 1 }

/-- Count of votes referencing one option row (the LEFT JOIN aggregate). -/
def countVotesForOption (s : Store) (optionId : Nat) : Nat :=
  (s.votes.filter (fun v => v.optionId == optionId)).length

/-- Repository.GetPollStats: fresh per-option counts from the durable
store, one line per option row of the poll in creation order; a missing
poll yields no rows (the SQL query returns an empty aggregate, not an
error). -/
def repoGetPollStats (s : Store) (pollId : Nat) : PollStats :=
  match s.polls.find? (fun p => p.id == pollId) with
  | some p => ⟨pollId, p.options.map (fun o => ⟨o.text, countVotesForOption s o.id⟩)⟩
  | none => ⟨pollId, []⟩

/-- Repository.GetCachedPollStats: redis GET of `poll:stats:<id>`. -/
def getCachedPollStats (s : Store) (pollId : Nat) : Except Err PollStats :=
  match s.statsCache.find? (fun e => e.1 == pollId) with
  | some e => .ok e.2
  | none => .error .notFound

/-- Repository.SetCachedPollStats: redis SET of `poll:stats:<id>`. -/
def setCachedPollStats (s : Store) (pollId : Nat) (st : PollStats) : Store :=
  { s with statsCache := (pollId, st) :: s.statsCache.filter (fun e => e.1 != pollId) }

/-- Repository.InvalidatePollStatsCache: redis DEL of `poll:stats:<id>`. -/
def invalidatePollStatsCache (s : Store) (pollId : Nat) : Store :=
  { s with statsCache := s.statsCache.filter (fun e => e.1 != pollId) }

/-- Repository.GetVoteByID. -/
def getVoteByID (s : Store) (voteId : Nat) : Except Err Vote :=
  match s.votes.find? (fun v => v.id == voteId) with
  | some v => .ok v
  | none => .error .notFound

/-- Repository.DeleteVote: `DELETE FROM votes WHERE id = $1 AND user_id = $2`;
zero rows affected → ErrUnauthorized. -/
def repoDeleteVote (s : Store) (voteId userId : Nat) : Except Err Store :=
  let remaining := s.votes.filter (fun v => !(v.id == voteId && v.userId == userId))
  if remaining.length == s.votes.length then .error .unauthorized
  else .ok { s with votes := remaining }

/-- Publish a fact (events.Publisher; at-least-once, appended on success). -/
def publish (s : Store) (f : Fact) : Store :=
  { s with events := s.events ++ [f] }

/-- Repository.UpdateVote: re-reads the vote, checks ownership, checks that
the target option row belongs to the vote's poll, repoints the vote's
option, then invalidates the poll's stats cache (best-effort, logged). -/
def repoUpdateVote (s : Store) (voteId userId optionId : Nat) (fl : Flags) :
    Except Err Store :=
  match getVoteByID s voteId with
  | .error e => .error e
  | .ok vote =>
    if vote.userId != userId then .error .unauthorized
    else
      let belongs :=
        match s.polls.find? (fun p => p.id == vote.pollId) with
        | some p => p.options.any (fun o => o.id == optionId)
        | none => false
      if !belongs then .error .invalidOption
      else
        let newVotes := s.votes.map (fun v =>
          if v.id == voteId && v.userId == userId then
            { v with optionId := optionId } else v)
        let s1 := { s with votes := newVotes }
        .ok (if fl.cacheFails then s1 else invalidatePollStatsCache s1 vote.pollId)

/-! ### Service layer (internal/service/service.go) -/

/-- service.VoteOnPoll at date `today` (UTC-truncated).  Mirrors the source
flow: HasVoted fast path, GetPollByID, option-index range check, daily-quota
read against MaxDailyVotes, CreateVote, then best-effort stats-cache
invalidation and fact publication.  Note: the source never calls
IncrementUserDailyVoteCount. -/
def voteOnPoll (s : Store) (today pollId userId : Nat) (optionIndex : Int)
    (fl : Flags) : Except Err Store :=
  if hasVoted s pollId userId then .error .alreadyVoted
  else
    match getPollByID s pollId with
    | .error e => .error e
    | .ok poll =>
      if optionIndex < 0 || (poll.options.length : Int) ≤ optionIndex then
        .error .invalidOption
      else if MaxDailyVotes ≤ getUserDailyVoteCount s userId today then
        .error .dailyVoteLimitExceeded
      else
        let opt := poll.options.getD optionIndex.toNat default
        match createVote s pollId userId opt.id with
        | .error e => .error e
        | .ok s1 =>
          let s2 := if fl.cacheFails then s1 else invalidatePollStatsCache s1 pollId
          let s3 := if fl.publishFails then s2
                    else publish s2 (.pollVoted pollId userId opt.id)
          .ok s3

/-- service.SkipPoll: HasSkipped fast path, CreateSkip, best-effort fact
publication.  No poll-existence pre-check and no stats-cache touch. -/
def skipPoll (s : Store) (pollId userId : Nat) (fl : Flags) : Except Err Store :=
  if hasSkipped s pollId userId then .error .alreadySkipped
  else
    match createSkip s pollId userId with
    | .error e => .error e
    | .ok s1 =>
      .ok (if fl.publishFails then s1 else publish s1 (.pollSkipped pollId userId))

/-- service.UpdateVote: ownership and range checks, Repository.UpdateVote
(which itself invalidates the stats cache), then best-effort publication. -/
def updateVote (s : Store) (voteId userId : Nat) (optionIndex : Int)
    (fl : Flags) : Except Err Store :=
  match getVoteByID s voteId with
  | .error e => .error e
  | .ok vote =>
    if vote.userId != userId then .error .unauthorized
    else
      match getPollByID s vote.pollId with
      | .error e => .error e
      | .ok poll =>
        if optionIndex < 0 || (poll.options.length : Int) ≤ optionIndex then
          .error .invalidOption
        else
          let opt := poll.options.getD optionIndex.toNat default
          match repoUpdateVote s voteId userId opt.id fl with
          | .error e => .error e
          | .ok s1 =>
            .ok (if fl.publishFails then s1
                 else publish s1 (.pollVoteUpdated voteId vote.pollId userId opt.id))

/-- service.DeleteVote: ownership check, Repository.DeleteVote, best-effort
publication.  No stats-cache invalidation and no quota decrement. -/
def deleteVote (s : Store) (voteId userId : Nat) (fl : Flags) : Except Err Store :=
  match getVoteByID s voteId with
  | .error e => .error e
  | .ok vote =>
    if vote.userId != userId then .error .unauthorized
    else
      match repoDeleteVote s voteId userId with
      | .error e => .error e
      | .ok s1 =>
        .ok (if fl.publishFails then s1
             else publish s1 (.pollVoteDeleted voteId vote.pollId vote.userId vote.optionId))

/-- service.GetPollStats: cached read; on miss compute fresh from the
durable store and cache the result (best-effort). -/
def getPollStats (s : Store) (pollId : Nat) (fl : Flags) : PollStats × Store :=
  match getCachedPollStats s pollId with
  | .ok st => (st, s)
  | .error _ =>
    let st := repoGetPollStats s pollId
    (st, if fl.cacheFails then s else setCachedPollStats s pollId st)

/-- The same read with the cache component disabled entirely: a plain
fresh aggregate from the durable store. -/
def getPollStatsNoCache (s : Store) (pollId : Nat) : PollStats :=
  repoGetPollStats s pollId

/-- service.CreatePoll: input validation, then insertion of the poll with
its option rows (indices 0..n-1) and tags (tags not modelled: no claim
concerns them). -/
def createPoll (s : Store) (title : String) (options : List String)
    (tags : List String) : Except Err (Nat × Store) :=
  if title == "" || options.length < 2 || tags.length == 0 then .error .invalidInput
  else
    let pid := s.nextId
    let opts := options.enum.map (fun oi => Opt.mk (s.nextId + 1 + oi.1) pid oi.2 oi.1)
    .ok (pid, { s with
      polls := s.polls ++ [⟨pid, title, opts⟩],
      nextId := s.nextId + 1 + options.length })

/-! ### Counter store and admission controller (internal/api/ratelimit.go)

Redis is modelled as an association list from keys (byte strings, `List
Char`) to an integer value plus an optional absolute expiry instant.  A key
whose expiry instant is ≤ now reads as absent.  INCR creates an absent or
expired key at 1 with no expiry and preserves the expiry of a live key;
SET stores a value with a fresh relative expiry; EXPIRE re-times a live
key.  Requests are modelled for a resolved (authenticated or
query-identified) non-empty user identity, the situation every claim about
per-(user, route) state quantifies over; the anonymous-POST pass-through
and the malformed-identity rejections of the middleware are outside the
claims and not modelled. -/

/-- Byte strings (Go string contents). -/
abbrev Str := List Char

/-- One Redis value with optional absolute expiry. -/
structure REntry where
  value : Int
  expiresAt : Option Int
deriving DecidableEq

/-- The counter store. -/
abbrev Redis := List (Str × REntry)

/-- Raw entry lookup, ignoring expiry. -/
def redisFind (r : Redis) (k : Str) : Option REntry :=
  (r.find? (fun x => x.1 == k)).map (fun x => x.2)

/-- GET: a key whose expiry has passed reads as absent (redis.Nil). -/
def redisGet (r : Redis) (now : Int) (k : Str) : Option Int :=
  match redisFind r k with
  | some e =>
    match e.expiresAt with
    | some t => if t ≤ now then none else some e.value
    | none => some e.value
  | none => none

/-- Replace (or insert) the entry of a key. -/
def redisSetEntry (r : Redis) (k : Str) (e : REntry) : Redis :=
  (k, e) :: r.filter (fun x => x.1 != k)

/-- INCR: returns the post-increment value; a fresh (absent or expired) key
starts from 0 and carries no expiry, a live key keeps its expiry. -/
def redisIncr (r : Redis) (now : Int) (k : Str) : Int × Redis :=
  match redisFind r k with
  | some e =>
    match e.expiresAt with
    | some t =>
      if t ≤ now then (1, redisSetEntry r k ⟨1, none⟩)
      else (e.value + 1, redisSetEntry r k ⟨e.value + 1, some t⟩)
    | none => (e.value + 1, redisSetEntry r k ⟨e.value + 1, none⟩)
  | none => (1, redisSetEntry r k ⟨1, none⟩)

/-- SET with relative expiry (seconds). -/
def redisSet (r : Redis) (now : Int) (k : Str) (v : Int) (ttl : Int) : Redis :=
  redisSetEntry r k ⟨v, some (now + ttl)⟩

/-- EXPIRE: re-time a live key; no-op on an absent key. -/
def redisExpire (r : Redis) (now : Int) (k : Str) (ttl : Int) : Redis :=
  match redisFind r k with
  | some e => redisSetEntry r k ⟨e.value, some (now + ttl)⟩
  | none => r

/-- Middleware constants (ratelimit.go). -/
def DefaultRateLimit : Int := 1000

def DefaultRateWindow : Int := 60

def DefaultBurstLimit : Int := 500

def DefaultCleanupWindow : Int := 3600

/-- The exemption test of both limiters:
`strings.HasPrefix(path, "/api/polls/") && strings.HasSuffix(path, "/stats")`. -/
def isExemptPath (path : Str) : Bool :=
  "/api/polls/".data.isPrefixOf path && "/stats".data.isSuffixOf path

/-- Key of the sustained limiter: `"rate_limit:" + userID + ":" + path`. -/
def rateKey (user path : Str) : Str :=
  "rate_limit:".data ++ user ++ ":".data ++ path

/-- `key + ":count"`. -/
def rateCountKey (user path : Str) : Str := rateKey user path ++ ":count".data

/-- `key + ":window"`. -/
def rateWindowKey (user path : Str) : Str := rateKey user path ++ ":window".data

/-- Key of the burst limiter: `"burst_limit:" + userID + ":" + path`. -/
def burstKey (user path : Str) : Str :=
  "burst_limit:".data ++ user ++ ":".data ++ path

/-- What the middleware does with the request. -/
inductive Decision where
  /-- `c.Next()` on the exempt fast path, before any store access. -/
  | nextExempt
  /-- `c.Next()` after the limiter admitted the request. -/
  | next
  /-- 429 Too Many Requests, `c.Abort()`. -/
  | reject
  /-- 500 Internal Server Error, `c.Abort()`. -/
  | internalError
deriving DecidableEq

/-- Middleware outcome: the decision plus the integer response headers
attached via `c.Header` before `c.Next()` (none are attached on reject or
error responses). -/
structure RLResult where
  decision : Decision
  headers : List (String × Int)
deriving DecidableEq

/-- RateLimiter.RateLimit for a resolved user identity.  `getFails` injects
a failure of the GET pipeline (fail-closed: 500); `updFails` injects a
failure of the INCR/SET pipeline (logged only, request continues). -/
def rateLimit (r : Redis) (now : Int) (user path : Str)
    (getFails updFails : Bool) : RLResult × Redis :=
  if isExemptPath path then (⟨.nextExempt, []⟩, r)
  else if getFails then (⟨.internalError, []⟩, r)
  else
    let countKey := rateCountKey user path
    let windowKey := rateWindowKey user path
    let count0 := (redisGet r now countKey).getD 0
    let window0 := (redisGet r now windowKey).getD now
    let count := if DefaultRateWindow ≤ now - window0 then 0 else count0
    let window := if DefaultRateWindow ≤ now - window0 then now else window0
    if DefaultRateLimit ≤ count then (⟨.reject, []⟩, r)
    else
      let r1 :=
        if updFails then r
        else redisSet (redisIncr r now countKey).2 now windowKey window DefaultCleanupWindow
      (⟨.next,
        [("X-RateLimit-Limit", DefaultRateLimit),
         ("X-RateLimit-Remaining", DefaultRateLimit - count - 1),
         ("X-RateLimit-Reset", window + DefaultRateWindow)]⟩, r1)

/-- RateLimiter.BurstLimit for a resolved user identity.  `incrFails`
injects a failure of INCR (fail-closed: 500); `expireFails` injects a
failure of EXPIRE (logged only, request continues). -/
def burstLimit (r : Redis) (now : Int) (user path : Str)
    (incrFails expireFails : Bool) : RLResult × Redis :=
  if isExemptPath path then (⟨.nextExempt, []⟩, r)
  else if incrFails then (⟨.internalError, []⟩, r)
  else
    let key := burstKey user path
    let (v, r1) := redisIncr r now key
    let r2 := if v == 1 && !expireFails then redisExpire r1 now key 1 else r1
    if DefaultBurstLimit < v then (⟨.reject, []⟩, r2)
    else
      (⟨.next,
        [("X-BurstLimit-Limit", DefaultBurstLimit),
         ("X-BurstLimit-Remaining", DefaultBurstLimit - v)]⟩, r2)

/-- `n` consecutive burst-limited requests by the same user on the same
path, all within the same second `t`, starting from counter store `r`. -/
def burstSteps (r : Redis) (t : Int) (user path : Str) : Nat → Redis
  | 0 => r
  | n + 1 => (burstLimit (burstSteps r t user path n) t user path false false).2

/-! ### Example data -/

/-- Option 0 of the example poll. -/
def optA : Opt := ⟨10, 1, "A", 0⟩

/-- Option 1 of the example poll. -/
def optB : Opt := ⟨11, 1, "B", 1⟩

/-- A two-option poll. -/
def poll1 : Poll := ⟨1, "P", [optA, optB]⟩

/-- A store holding `poll1` and nothing else. -/
def store0 : Store := ⟨[poll1], [], [], [], [], [], 100⟩

/-- `store0` after user 7 voted for option 0 of poll 1. -/
def store1 : Store :=
  ⟨[poll1], [⟨100, 1, 7, 10⟩], [], [], [], [Fact.pollVoted 1 7 10], 101⟩

/-- `store0` with user 7's daily quota already at the cap. -/
def storeMaxed : Store := ⟨[poll1], [], [], [((7, 0), 100)], [], [], 100⟩

/-- A store with one vote by user 7 and a warm (coherent) stats-cache entry
for poll 1. -/
def storeWarm : Store :=
  ⟨[poll1], [⟨50, 1, 7, 10⟩], [], [],
   [(1, ⟨1, [⟨"A", 1⟩, ⟨"B", 0⟩]⟩)], [], 100⟩

/-- `storeWarm` after user 7's vote was deleted: the durable vote is gone
but the stats-cache entry survives untouched. -/
def storeWarmDel : Store :=
  ⟨[poll1], [], [], [],
   [(1, ⟨1, [⟨"A", 1⟩, ⟨"B", 0⟩]⟩)], [Fact.pollVoteDeleted 50 1 7 10], 100⟩

/-- `store0` with a skip of poll 1 by user 7 recorded. -/
def storeSkipped : Store := ⟨[poll1], [], [⟨60, 1, 7⟩], [], [], [], 100⟩

/-- The caller-visible status of a ledger mutation: `none` for success,
`some e` for the domain error returned. -/
def resultStatus : Except Err Store → Option Err
  | .ok _ => none
  | .error e => some e

/-- At most one vote per (poll, user) pair. -/
def uniqueVotes (s : Store) : Prop :=
  s.votes.Pairwise (fun a b => ¬(a.pollId = b.pollId ∧ a.userId = b.userId))

/-- Example user identity for concrete limiter runs. -/
def exUser : Str := "u".data

/-- A non-exempt route (the vote endpoint of poll 1). -/
def exVotePath : Str := "/api/polls/1/vote".data

/-- Counter store holding a full window count whose window has expired
(window start 0, read at now = 100). -/
def staleR : Redis :=
  [(rateCountKey exUser exVotePath, ⟨1000, none⟩),
   (rateWindowKey exUser exVotePath, ⟨0, some 3600⟩)]

/-- Counter store holding a full count inside a current window. -/
def freshR : Redis :=
  [(rateCountKey exUser exVotePath, ⟨1000, none⟩),
   (rateWindowKey exUser exVotePath, ⟨5, some 3600⟩)]

/-! ### Helper lemmas -/

theorem getD_mem_of_lt {α : Type} (l : List α) (n : Nat) (d : α)
    (h : n < l.length) : l.getD n d ∈ l := by
  induction l generalizing n with
  | nil => simp at h
  | cons a t ih =>
    cases n with
    | zero => simp [List.getD_cons_zero]
    | succ m =>
      have : t.getD m d ∈ t := ih m (by simpa using h)
      rw [List.getD_cons_succ]
      exact List.mem_cons_of_mem a this

theorem getPollByID_ok_mem {s : Store} {p : Nat} {poll : Poll}
    (h : getPollByID s p = .ok poll) : poll ∈ s.polls ∧ poll.id = p := by
  unfold getPollByID at h
  cases hf : s.polls.find? (fun q => q.id == p) with
  | none => simp [hf] at h
  | some q =>
    simp [hf] at h
    subst h
    exact ⟨List.mem_of_find?_eq_some hf, by simpa using List.find?_some hf⟩

theorem pollExists_of_ok {s : Store} {p : Nat} {poll : Poll}
    (h : getPollByID s p = .ok poll) : pollExists s p = true := by
  obtain ⟨hm, hid⟩ := getPollByID_ok_mem h
  unfold pollExists
  simp only [List.any_eq_true]
  exact ⟨poll, hm, by simp [hid]⟩

theorem optionExists_of_mem {s : Store} {poll : Poll} {o : Opt}
    (hm : poll ∈ s.polls) (ho : o ∈ poll.options) :
    optionExists s o.id = true := by
  unfold optionExists
  simp only [List.any_eq_true]
  exact ⟨poll, hm, ⟨o, ho, by simp⟩⟩

/-- Under the service's own pre-checks the repository insert succeeds. -/
theorem createVote_ok {s : Store} {p u : Nat} (poll : Poll) (oid : Nat)
    (hv : hasVoted s p u = false) (hp : getPollByID s p = .ok poll)
    (ho : ∃ o ∈ poll.options, o.id = oid) :
    createVote s p u oid =
      .ok { s with votes := s.votes ++ [⟨s.nextId, p, u, oid⟩],
                   nextId := s.nextId + 1 } := by
  obtain ⟨o, hom, hoid⟩ := ho
  have h1 : pollExists s p = true := pollExists_of_ok hp
  have h2 : optionExists s oid = true := by
    rw [← hoid]; exact optionExists_of_mem (getPollByID_ok_mem hp).1 hom
  unfold createVote
  simp [hv, h1, h2]

/-- Explicit characterization of service.VoteOnPoll. -/
theorem voteOnPoll_eq (s : Store) (t p u : Nat) (i : Int) (fl : Flags) :
    voteOnPoll s t p u i fl =
      if hasVoted s p u then .error .alreadyVoted
      else
        match getPollByID s p with
        | .error e => .error e
        | .ok poll =>
          if i < 0 || (poll.options.length : Int) ≤ i then .error .invalidOption
          else if MaxDailyVotes ≤ getUserDailyVoteCount s u t then
            .error .dailyVoteLimitExceeded
          else
            let oid := (poll.options.getD i.toNat default).id
            .ok { s with
              votes := s.votes ++ [⟨s.nextId, p, u, oid⟩],
              nextId := s.nextId + 1,
              statsCache := if fl.cacheFails then s.statsCache
                            else s.statsCache.filter (fun e => e.1 != p),
              events := if fl.publishFails then s.events
                        else s.events ++ [.pollVoted p u oid] } := by
  unfold voteOnPoll
  cases hv : hasVoted s p u with
  | true => simp
  | false =>
    simp only [Bool.false_eq_true, if_false]
    cases hp : getPollByID s p with
    | error e => simp
    | ok poll =>
      simp only
      by_cases hi : i < 0 || (poll.options.length : Int) ≤ i
      · simp [hi]
      · simp only [hi, if_false]
        by_cases hq : MaxDailyVotes ≤ getUserDailyVoteCount s u t
        · simp [hq]
        · simp only [hq, if_false]
          have hrange : i.toNat < poll.options.length := by
            simp only [Bool.or_eq_true, decide_eq_true_eq, not_or] at hi
            omega
          have hcv := createVote_ok poll
            ((poll.options.getD i.toNat default).id) hv hp
            ⟨poll.options.getD i.toNat default,
             getD_mem_of_lt _ _ _ hrange, rfl⟩
          rw [hcv]
          cases hc : fl.cacheFails <;> cases hb : fl.publishFails <;>
            simp [invalidatePollStatsCache, publish, hc, hb]

/-- Explicit characterization of service.SkipPoll. -/
theorem skipPoll_eq (s : Store) (p u : Nat) (fl : Flags) :
    skipPoll s p u fl =
      if hasSkipped s p u then .error .alreadySkipped
      else if !(pollExists s p) then .error .internal
      else .ok { s with
        skips := s.skips ++ [⟨s.nextId, p, u⟩],
        nextId := s.nextId + 1,
        events := if fl.publishFails then s.events
                  else s.events ++ [.pollSkipped p u] } := by
  unfold skipPoll createSkip
  cases hv : hasSkipped s p u with
  | true => simp
  | false =>
    cases hp : pollExists s p with
    | false => simp [hv, hp]
    | true =>
      cases hb : fl.publishFails <;> simp [hv, hp, publish, hb]

/-- Explicit characterization of service.DeleteVote. -/
theorem deleteVote_eq (s : Store) (vid u : Nat) (fl : Flags) :
    deleteVote s vid u fl =
      match getVoteByID s vid with
      | .error e => .error e
      | .ok v =>
        if v.userId != u then .error .unauthorized
        else .ok { s with
          votes := s.votes.filter (fun w => !(w.id == vid && w.userId == u)),
          events := if fl.publishFails then s.events
                    else s.events ++
                      [.pollVoteDeleted vid v.pollId v.userId v.optionId] } := by
  unfold deleteVote
  cases hg : getVoteByID s vid with
  | error e => simp
  | ok v =>
    simp only
    by_cases ho : v.userId = u
    · have hvm : v ∈ s.votes := by
        unfold getVoteByID at hg
        cases hf : s.votes.find? (fun w => w.id == vid) with
        | none => simp [hf] at hg
        | some w => simp [hf] at hg; subst hg; exact List.mem_of_find?_eq_some hf
      have hvid : v.id = vid := by
        unfold getVoteByID at hg
        cases hf : s.votes.find? (fun w => w.id == vid) with
        | none => simp [hf] at hg
        | some w =>
          simp [hf] at hg; subst hg
          simpa using List.find?_some hf
      have hlt : (s.votes.filter (fun w => !(w.id == vid && w.userId == u))).length
          < s.votes.length := by
        rw [List.length_filter_lt_length_iff_exists]
        refine ⟨v, hvm, ?_⟩
        simp [hvid, ho]
      have hne : ((s.votes.filter
          (fun w => !(w.id == vid && w.userId == u))).length == s.votes.length) = false := by
        rw [beq_eq_false_iff_ne]
        exact Nat.ne_of_lt hlt
      have hdel : repoDeleteVote s vid u =
          .ok { s with votes := s.votes.filter (fun w => !(w.id == vid && w.userId == u)) } := by
        unfold repoDeleteVote
        simp only [hne, Bool.false_eq_true, if_false]
      rw [hdel]
      cases hb : fl.publishFails <;> simp [ho, publish, hb]
    · simp [ho]

/-- Explicit characterization of service.UpdateVote (with the repository's
own re-checks folded in: on the sequential path they agree with the
service's). -/
theorem updateVote_eq (s : Store) (vid u : Nat) (i : Int) (fl : Flags) :
    updateVote s vid u i fl =
      match getVoteByID s vid with
      | .error e => .error e
      | .ok v =>
        if v.userId != u then .error .unauthorized
        else
          match getPollByID s v.pollId with
          | .error e => .error e
          | .ok poll =>
            if i < 0 || (poll.options.length : Int) ≤ i then .error .invalidOption
            else
              let oid := (poll.options.getD i.toNat default).id
              .ok { s with
                votes := s.votes.map (fun w =>
                  if w.id == vid && w.userId == u then
                    { w with optionId := oid } else w),
                statsCache := if fl.cacheFails then s.statsCache
                              else s.statsCache.filter (fun e => e.1 != v.pollId),
                events := if fl.publishFails then s.events
                          else s.events ++ [.pollVoteUpdated vid v.pollId u oid] } := by
  unfold updateVote
  cases hg : getVoteByID s vid with
  | error e => simp
  | ok v =>
    simp only
    by_cases ho : v.userId = u
    · cases hp : getPollByID s v.pollId with
      | error e => simp [ho, hp]
      | ok poll =>
        simp only [ho, bne_self_eq_false, if_false]
        by_cases hi : i < 0 || (poll.options.length : Int) ≤ i
        · simp [hi]
        · simp only [hi, if_false]
          have hrange : i.toNat < poll.options.length := by
            simp only [Bool.or_eq_true, decide_eq_true_eq, not_or] at hi
            omega
          have hbelongs :
              (match s.polls.find? (fun q => q.id == v.pollId) with
               | some q => q.options.any
                   (fun o => o.id == (poll.options.getD i.toNat default).id)
               | none => false) = true := by
            unfold getPollByID at hp
            cases hf : s.polls.find? (fun q => q.id == v.pollId) with
            | none => simp [hf] at hp
            | some q =>
              simp [hf] at hp; subst hp
              simp only [List.any_eq_true]
              exact ⟨q.options.getD i.toNat default,
                getD_mem_of_lt _ _ _ hrange, by simp⟩
          unfold repoUpdateVote
          rw [hg]
          simp only [ho, bne_self_eq_false, if_false, hbelongs]
          cases hc : fl.cacheFails <;> cases hb : fl.publishFails <;>
            simp [invalidatePollStatsCache, publish, hc, hb]
    · simp [ho]

/-- A missing (poll, user) vote, stated element-wise. -/
theorem hasVoted_false_key_free {s : Store} {p u : Nat}
    (h : hasVoted s p u = false) :
    ∀ v ∈ s.votes, ¬(v.pollId = p ∧ v.userId = u) := by
  intro v hm hk
  have : hasVoted s p u = true := by
    unfold hasVoted
    simp only [List.any_eq_true]
    exact ⟨v, hm, by simp [hk.1, hk.2]⟩
  rw [h] at this
  cases this

theorem hasVoted_of_mem {s : Store} {p u : Nat} (v : Vote) (hm : v ∈ s.votes)
    (h1 : v.pollId = p) (h2 : v.userId = u) : hasVoted s p u = true := by
  unfold hasVoted
  simp only [List.any_eq_true]
  exact ⟨v, hm, by simp [h1, h2]⟩

theorem voteOnPoll_ok_hasVoted {s s' : Store} {t p u : Nat} {i : Int}
    {fl : Flags} (h : voteOnPoll s t p u i fl = .ok s') :
    hasVoted s' p u = true := by
  rw [voteOnPoll_eq] at h
  split at h
  · cases h
  · split at h
    · cases h
    · rename_i poll heq
      split at h
      · cases h
      · split at h
        · cases h
        · cases h
          exact hasVoted_of_mem
            ⟨s.nextId, p, u, (poll.options.getD i.toNat default).id⟩
            (by simp) rfl rfl

/-! ### Claim theorems -/

/-- C1 (code bug in the source): a successful service.VoteOnPoll leaves the
`user_daily_votes` counter of every user and date untouched — the service
reads the counter for the cap check but never calls
Repository.IncrementUserDailyVoteCount — and service.DeleteVote never
decrements (or otherwise changes) it either.  The claim's incremented-by-
exactly-one behavior is the spec's stated intent; the code drops the
increment, leaving the daily cap check to read a counter that is never
advanced. -/
theorem vote_path_daily_quota_frozen (s : Store) (t p u vid du : Nat)
    (i : Int) (fl fl' : Flags) :
    (∀ s', voteOnPoll s t p u i fl = .ok s' → s'.dailyVotes = s.dailyVotes) ∧
    (∀ s', deleteVote s vid du fl' = .ok s' → s'.dailyVotes = s.dailyVotes) := by
  constructor
  · intro s' h
    rw [voteOnPoll_eq] at h
    split at h
    · cases h
    · split at h
      · cases h
      · split at h
        · cases h
        · split at h
          · cases h
          · cases h; rfl
  · intro s' h
    rw [deleteVote_eq] at h
    split at h
    · cases h
    · split at h
      · cases h
      · cases h; rfl

/-- C1 witness: a concrete successful vote whose daily-quota table is
unchanged (it stays empty, so the user's count for the day remains 0). -/
theorem vote_path_daily_quota_frozen_witness :
    voteOnPoll store0 0 1 7 0 noFail = .ok store1 ∧
    store1.dailyVotes = store0.dailyVotes ∧
    getUserDailyVoteCount store1 7 0 = 0 :=
  ⟨by rfl,
   (vote_path_daily_quota_frozen store0 0 1 7 0 0 0 noFail noFail).1 store1 (by rfl),
   by rfl⟩

/-- C2: the error taxonomy of service.VoteOnPoll, in the source's check
order — AlreadyVoted when a vote for (poll, user) exists, NotFound when
the poll row is absent, InvalidOption for an index outside
[0, len(options)) (covering len(options) and -1), DailyVoteLimitExceeded
when the user's daily count is at or above 100, and otherwise success with
a vote referencing the option at the requested index appended; the
repository additionally translates the unique-constraint rejection of a
duplicate insert into AlreadyVoted. -/
theorem voteOnPoll_error_taxonomy (s : Store) (t p u : Nat) (i : Int)
    (fl : Flags) :
    (hasVoted s p u = true →
        voteOnPoll s t p u i fl = .error .alreadyVoted) ∧
    (hasVoted s p u = false → getPollByID s p = .error .notFound →
        voteOnPoll s t p u i fl = .error .notFound) ∧
    (∀ poll, hasVoted s p u = false → getPollByID s p = .ok poll →
        (i < 0 ∨ (poll.options.length : Int) ≤ i) →
        voteOnPoll s t p u i fl = .error .invalidOption) ∧
    (∀ poll, hasVoted s p u = false → getPollByID s p = .ok poll →
        ¬(i < 0 ∨ (poll.options.length : Int) ≤ i) →
        MaxDailyVotes ≤ getUserDailyVoteCount s u t →
        voteOnPoll s t p u i fl = .error .dailyVoteLimitExceeded) ∧
    (∀ poll, hasVoted s p u = false → getPollByID s p = .ok poll →
        ¬(i < 0 ∨ (poll.options.length : Int) ≤ i) →
        getUserDailyVoteCount s u t < MaxDailyVotes →
        ∃ s', voteOnPoll s t p u i fl = .ok s' ∧
          s'.votes = s.votes ++
            [⟨s.nextId, p, u, (poll.options.getD i.toNat default).id⟩]) ∧
    (∀ oid, hasVoted s p u = true →
        createVote s p u oid = .error .alreadyVoted) := by
  refine ⟨?_, ?_, ?_, ?_, ?_, ?_⟩
  · intro hv
    rw [voteOnPoll_eq]
    simp [hv]
  · intro hv hp
    rw [voteOnPoll_eq]
    simp [hv, hp]
  · intro poll hv hp hi
    rw [voteOnPoll_eq]
    have hib : (decide (i < 0) || decide ((poll.options.length : Int) ≤ i)) = true := by
      rcases hi with h | h <;> simp [h]
    simp [hv, hp, hib]
  · intro poll hv hp hi hq
    rw [voteOnPoll_eq]
    have hib : (decide (i < 0) || decide ((poll.options.length : Int) ≤ i)) = false := by
      rw [not_or] at hi
      simp [hi.1, hi.2]
    simp [hv, hp, hib, hq]
  · intro poll hv hp hi hq
    have hib : (decide (i < 0) || decide ((poll.options.length : Int) ≤ i)) = false := by
      rw [not_or] at hi
      simp [hi.1, hi.2]
    have hEq : voteOnPoll s t p u i fl = .ok { s with
        votes := s.votes ++
          [⟨s.nextId, p, u, (poll.options.getD i.toNat default).id⟩],
        nextId := s.nextId + 1,
        statsCache := if fl.cacheFails then s.statsCache
                      else s.statsCache.filter (fun e => e.1 != p),
        events := if fl.publishFails then s.events
                  else s.events ++
                    [.pollVoted p u (poll.options.getD i.toNat default).id] } := by
      rw [voteOnPoll_eq]
      simp [hv, hp, hib, Nat.not_le_of_lt hq]
    exact ⟨_, hEq, by simp⟩
  · intro oid hv
    unfold createVote
    simp [hv]

/-- C2 witness: each branch exercised at concrete inputs on the example
poll (two options, indices 0 and 1). -/
theorem voteOnPoll_error_taxonomy_witness :
    voteOnPoll store1 0 1 7 1 noFail = .error .alreadyVoted ∧
    voteOnPoll store0 0 2 7 0 noFail = .error .notFound ∧
    voteOnPoll store0 0 1 7 2 noFail = .error .invalidOption ∧
    voteOnPoll store0 0 1 7 (-1) noFail = .error .invalidOption ∧
    voteOnPoll storeMaxed 0 1 7 0 noFail = .error .dailyVoteLimitExceeded ∧
    (∃ s', voteOnPoll store0 0 1 7 0 noFail = .ok s' ∧
        s'.votes = [⟨100, 1, 7, 10⟩]) ∧
    createVote store1 1 7 11 = .error .alreadyVoted :=
  ⟨(voteOnPoll_error_taxonomy store1 0 1 7 1 noFail).1 (by rfl),
   (voteOnPoll_error_taxonomy store0 0 2 7 0 noFail).2.1 (by rfl) (by rfl),
   (voteOnPoll_error_taxonomy store0 0 1 7 2 noFail).2.2.1 poll1 (by rfl) (by rfl)
     (by right; decide),
   (voteOnPoll_error_taxonomy store0 0 1 7 (-1) noFail).2.2.1 poll1 (by rfl) (by rfl)
     (by left; decide),
   (voteOnPoll_error_taxonomy storeMaxed 0 1 7 0 noFail).2.2.2.1 poll1 (by rfl) (by rfl)
     (by decide) (by decide),
   (voteOnPoll_error_taxonomy store0 0 1 7 0 noFail).2.2.2.2.1 poll1 (by rfl) (by rfl)
     (by decide) (by decide),
   (voteOnPoll_error_taxonomy store1 0 1 7 1 noFail).2.2.2.2.2 11 (by rfl)⟩

/-- C3: every engine operation preserves the at-most-one-vote-per-
(poll, user) invariant, and after a successful VoteOnPoll(p, u, i) any
subsequent VoteOnPoll(p, u, j) — any index, any later date — fails with
AlreadyVoted. -/
theorem vote_uniqueness_invariant (s : Store) (t t' p u vid uu pid : Nat)
    (i j : Int) (fl fl' : Flags) (title : String) (opts tags : List String) :
    (∀ s', voteOnPoll s t p u i fl = .ok s' → uniqueVotes s → uniqueVotes s') ∧
    (∀ s', skipPoll s p u fl = .ok s' → uniqueVotes s → uniqueVotes s') ∧
    (∀ s', updateVote s vid uu i fl = .ok s' → uniqueVotes s → uniqueVotes s') ∧
    (∀ s', deleteVote s vid uu fl = .ok s' → uniqueVotes s → uniqueVotes s') ∧
    (uniqueVotes s → uniqueVotes (getPollStats s pid fl).2) ∧
    (∀ n s', createPoll s title opts tags = .ok (n, s') →
        uniqueVotes s → uniqueVotes s') ∧
    (∀ s', voteOnPoll s t p u i fl = .ok s' →
        voteOnPoll s' t' p u j fl' = .error .alreadyVoted) := by
  refine ⟨?_, ?_, ?_, ?_, ?_, ?_, ?_⟩
  · intro s' h hu
    rw [voteOnPoll_eq] at h
    split at h
    · cases h
    · rename_i hv
      split at h
      · cases h
      · split at h
        · cases h
        · split at h
          · cases h
          · cases h
            unfold uniqueVotes at hu ⊢
            simp only
            rw [List.pairwise_append]
            refine ⟨hu, by simp, ?_⟩
            intro a ha b hb
            simp only [List.mem_singleton] at hb
            subst hb
            intro hk
            exact hasVoted_false_key_free (Bool.of_not_eq_true hv) a ha hk
  · intro s' h hu
    rw [skipPoll_eq] at h
    split at h
    · cases h
    · split at h
      · cases h
      · cases h
        exact hu
  · intro s' h hu
    rw [updateVote_eq] at h
    split at h
    · cases h
    · split at h
      · cases h
      · split at h
        · cases h
        · split at h
          · cases h
          · cases h
            unfold uniqueVotes at hu ⊢
            simp only
            refine hu.map _ ?_
            intro a b hr hk
            apply hr
            revert hk
            by_cases h1 : (a.id == vid && a.userId == uu) = true <;>
              by_cases h2 : (b.id == vid && b.userId == uu) = true <;>
                simp [h1, h2]
  · intro s' h hu
    rw [deleteVote_eq] at h
    split at h
    · cases h
    · split at h
      · cases h
      · cases h
        unfold uniqueVotes at hu ⊢
        simp only
        exact hu.sublist (List.filter_sublist _)
  · intro hu
    unfold getPollStats
    split
    · exact hu
    · split
      · exact hu
      · exact hu
  · intro n s' h hu
    unfold createPoll at h
    split at h
    · cases h
    · cases h
      exact hu
  · intro s' h
    have hv' := voteOnPoll_ok_hasVoted h
    rw [voteOnPoll_eq]
    simp [hv']

/-- C3 witness: the duplicate-rejection part applied after the concrete
successful vote of `store0`, and the invariant transported to `store1`. -/
theorem vote_uniqueness_invariant_witness :
    voteOnPoll store1 5 1 7 1 noFail = .error .alreadyVoted ∧
    uniqueVotes store1 :=
  ⟨(vote_uniqueness_invariant store0 0 5 1 7 0 0 0 0 1 noFail noFail "" [] []).2.2.2.2.2.2
      store1 (by rfl),
   (vote_uniqueness_invariant store0 0 5 1 7 0 0 0 0 1 noFail noFail "" [] []).1
      store1 (by rfl) List.Pairwise.nil⟩

theorem find?_filter_ne_none (l : List (Nat × PollStats)) (p : Nat) :
    (l.filter (fun e => e.1 != p)).find? (fun e => e.1 == p) = none := by
  rw [List.find?_eq_none]
  intro x hx
  have := List.of_mem_filter hx
  simpa using this

/-- Cache status lemma: invalidation really removes the entry. -/
theorem getCached_invalidated (s : Store) (p : Nat) :
    getCachedPollStats (invalidatePollStatsCache s p) p = .error .notFound := by
  unfold getCachedPollStats invalidatePollStatsCache
  simp only [find?_filter_ne_none]

theorem voteOnPoll_status_indep (s : Store) (t p u : Nat) (i : Int)
    (fl fl' : Flags) :
    resultStatus (voteOnPoll s t p u i fl) =
      resultStatus (voteOnPoll s t p u i fl') := by
  rw [voteOnPoll_eq, voteOnPoll_eq]
  split
  · rfl
  · split
    · rfl
    · split
      · rfl
      · split
        · rfl
        · rfl

theorem skipPoll_status_indep (s : Store) (p u : Nat) (fl fl' : Flags) :
    resultStatus (skipPoll s p u fl) = resultStatus (skipPoll s p u fl') := by
  rw [skipPoll_eq, skipPoll_eq]
  split
  · rfl
  · split
    · rfl
    · rfl

theorem updateVote_status_indep (s : Store) (vid u : Nat) (i : Int)
    (fl fl' : Flags) :
    resultStatus (updateVote s vid u i fl) =
      resultStatus (updateVote s vid u i fl') := by
  rw [updateVote_eq, updateVote_eq]
  split
  · rfl
  · split
    · rfl
    · split
      · rfl
      · split
        · rfl
        · rfl

theorem deleteVote_status_indep (s : Store) (vid u : Nat) (fl fl' : Flags) :
    resultStatus (deleteVote s vid u fl) =
      resultStatus (deleteVote s vid u fl') := by
  rw [deleteVote_eq, deleteVote_eq]
  split
  · rfl
  · split
    · rfl
    · rfl

/-- C10 counterexample: skipping a poll that does not exist does not fail
with NotFound — the insert's foreign-key rejection surfaces as the generic
internal error (the service never checks poll existence on the skip path). -/
theorem skipPoll_missing_poll_counterexample :
    skipPoll store0 2 7 noFail = .error .internal ∧
    skipPoll store0 2 7 noFail ≠ .error .notFound := by
  refine ⟨by rfl, ?_⟩
  intro h
  rw [show skipPoll store0 2 7 noFail = Except.error Err.internal from rfl] at h
  simp at h

/-- C10 amended: SkipPoll fails with AlreadySkipped if a Skip for
(poll, user) already exists; when the poll does not exist the insert is
rejected by the foreign key and surfaces as a generic internal error (not
NotFound); otherwise exactly one Skip is recorded and success returned. -/
theorem skipPoll_taxonomy (s : Store) (p u : Nat) (fl : Flags) :
    (hasSkipped s p u = true → skipPoll s p u fl = .error .alreadySkipped) ∧
    (hasSkipped s p u = false → pollExists s p = false →
        skipPoll s p u fl = .error .internal) ∧
    (hasSkipped s p u = false → pollExists s p = true →
        ∃ s', skipPoll s p u fl = .ok s' ∧
          s'.skips = s.skips ++ [⟨s.nextId, p, u⟩]) := by
  refine ⟨?_, ?_, ?_⟩
  · intro hk
    rw [skipPoll_eq]
    simp [hk]
  · intro hk hp
    rw [skipPoll_eq]
    simp [hk, hp]
  · intro hk hp
    have hEq : skipPoll s p u fl = .ok { s with
        skips := s.skips ++ [⟨s.nextId, p, u⟩],
        nextId := s.nextId + 1,
        events := if fl.publishFails then s.events
                  else s.events ++ [.pollSkipped p u] } := by
      rw [skipPoll_eq]
      simp [hk, hp]
    exact ⟨_, hEq, by simp⟩

/-- C10 witness: duplicate-skip rejection and a successful skip recording
exactly one Skip row, at concrete stores. -/
theorem skipPoll_taxonomy_witness :
    skipPoll storeSkipped 1 7 noFail = .error .alreadySkipped ∧
    (∃ s', skipPoll store0 1 7 noFail = .ok s' ∧
        s'.skips = [⟨100, 1, 7⟩]) :=
  ⟨(skipPoll_taxonomy storeSkipped 1 7 noFail).1 (by rfl),
   (skipPoll_taxonomy store0 1 7 noFail).2.2 (by rfl) (by rfl)⟩

/-- C5 counterexample: a successful DeleteVote neither invalidates nor
refreshes the stats-cache entry of the affected poll — the warm entry
survives and is now stale (it still counts the deleted vote), while the
fresh durable aggregate differs.  (SkipPoll likewise leaves the stats
cache untouched, as the amended theorem shows.) -/
theorem deleteVote_leaves_stale_stats_cache :
    deleteVote storeWarm 50 7 noFail = .ok storeWarmDel ∧
    getCachedPollStats storeWarmDel 1 = .ok ⟨1, [⟨"A", 1⟩, ⟨"B", 0⟩]⟩ ∧
    repoGetPollStats storeWarmDel 1 = ⟨1, [⟨"A", 0⟩, ⟨"B", 0⟩]⟩ ∧
    (⟨1, [⟨"A", 1⟩, ⟨"B", 0⟩]⟩ : PollStats) ≠ ⟨1, [⟨"A", 0⟩, ⟨"B", 0⟩]⟩ := by
  refine ⟨by rfl, by rfl, by rfl, ?_⟩
  intro h
  have := congrArg PollStats.votes h
  simp at this

/-- C5 amended: vote creation and vote update invalidate the affected
poll's stats-cache entry (when the cache is reachable) and every
successful mutation publishes one fact (when the publisher is reachable),
but SkipPoll and DeleteVote leave the stats cache untouched; and a failure
of the cache invalidation or of the fact publication never changes the
mutation's returned status — success stays success, and the error, if
any, is the same. -/
theorem mutation_cache_notify_behavior (s : Store) (t p u vid uu : Nat)
    (i : Int) (fl : Flags) :
    (∀ s', voteOnPoll s t p u i fl = .ok s' →
        (fl.cacheFails = false → getCachedPollStats s' p = .error .notFound) ∧
        (fl.publishFails = false →
            s'.events = s.events ++ [.pollVoted p u (s'.votes.getLastD default).optionId])) ∧
    (∀ v s', getVoteByID s vid = .ok v → updateVote s vid uu i fl = .ok s' →
        (fl.cacheFails = false →
            getCachedPollStats s' v.pollId = .error .notFound) ∧
        (fl.publishFails = false → ∃ oid,
            s'.events = s.events ++ [.pollVoteUpdated vid v.pollId uu oid])) ∧
    (∀ s', skipPoll s p u fl = .ok s' →
        s'.statsCache = s.statsCache ∧
        (fl.publishFails = false →
            s'.events = s.events ++ [.pollSkipped p u])) ∧
    (∀ s', deleteVote s vid uu fl = .ok s' →
        s'.statsCache = s.statsCache ∧
        (fl.publishFails = false → ∃ f, s'.events = s.events ++ [f])) ∧
    (∀ fl' : Flags,
        resultStatus (voteOnPoll s t p u i fl) =
          resultStatus (voteOnPoll s t p u i fl') ∧
        resultStatus (updateVote s vid uu i fl) =
          resultStatus (updateVote s vid uu i fl') ∧
        resultStatus (skipPoll s p u fl) = resultStatus (skipPoll s p u fl') ∧
        resultStatus (deleteVote s vid uu fl) =
          resultStatus (deleteVote s vid uu fl')) := by
  refine ⟨?_, ?_, ?_, ?_, ?_⟩
  · intro s' h
    rw [voteOnPoll_eq] at h
    split at h
    · cases h
    · split at h
      · cases h
      · split at h
        · cases h
        · split at h
          · cases h
          · cases h
            constructor
            · intro hc
              simp only [hc, Bool.false_eq_true, if_false]
              unfold getCachedPollStats
              simp only [find?_filter_ne_none]
            · intro hb
              simp only [hb, Bool.false_eq_true, if_false]
              simp
  · intro v s' hg h
    rw [updateVote_eq] at h
    rw [hg] at h
    simp only at h
    split at h
    · cases h
    · split at h
      · cases h
      · split at h
        · cases h
        · cases h
          constructor
          · intro hc
            simp only [hc, Bool.false_eq_true, if_false]
            unfold getCachedPollStats
            simp only [find?_filter_ne_none]
          · intro hb
            simp only [hb, Bool.false_eq_true, if_false]
            exact ⟨_, rfl⟩
  · intro s' h
    rw [skipPoll_eq] at h
    split at h
    · cases h
    · split at h
      · cases h
      · cases h
        refine ⟨rfl, ?_⟩
        intro hb
        simp only [hb, Bool.false_eq_true, if_false]
  · intro s' h
    rw [deleteVote_eq] at h
    split at h
    · cases h
    · split at h
      · cases h
      · cases h
        refine ⟨rfl, ?_⟩
        intro hb
        simp only [hb, Bool.false_eq_true, if_false]
        exact ⟨_, rfl⟩
  · intro fl'
    exact ⟨voteOnPoll_status_indep s t p u i fl fl',
      updateVote_status_indep s vid uu i fl fl',
      skipPoll_status_indep s p u fl fl',
      deleteVote_status_indep s vid uu fl fl'⟩

/-- C5 witness: a concrete vote invalidates the warm cache entry and
publishes its fact; and a concrete skip succeeds even when both the cache
and the publisher are failing, with the same (successful) status as
without failures. -/
theorem mutation_cache_notify_behavior_witness :
    (∃ s', voteOnPoll storeWarm 0 1 8 1 noFail = .ok s' ∧
        getCachedPollStats s' 1 = .error .notFound) ∧
    resultStatus (skipPoll store0 1 7 ⟨true, true⟩) =
      resultStatus (skipPoll store0 1 7 noFail) := by
  constructor
  · have h : voteOnPoll storeWarm 0 1 8 1 noFail =
        .ok ⟨[poll1], [⟨50, 1, 7, 10⟩, ⟨100, 1, 8, 11⟩], [], [], [],
             [Fact.pollVoted 1 8 11], 101⟩ := by rfl
    exact ⟨_, h,
      ((mutation_cache_notify_behavior storeWarm 0 1 8 0 0 1 noFail).1 _ h).1 rfl⟩
  · exact ((mutation_cache_notify_behavior store0 0 1 7 0 0 0 ⟨true, true⟩).2.2.2.2
      noFail).2.2.1

theorem getCached_set_self (s : Store) (p : Nat) (st : PollStats) :
    getCachedPollStats (setCachedPollStats s p st) p = .ok st := by
  unfold getCachedPollStats setCachedPollStats
  rw [List.find?_cons_of_pos _ (by simp)]

/-- C8: GetPollStats is cache-transparent — a cold (miss) read returns the
fresh durable aggregate and a warm read immediately after returns the very
same value over the unchanged vote set; and whenever the cached entry is
absent or agrees with the durable aggregate (the cache never having been
left stale), the result equals that of the engine with the cache component
disabled entirely. -/
theorem getPollStats_cache_transparent (s : Store) (p : Nat) (fl fl' : Flags) :
    (getCachedPollStats s p = .error .notFound →
        (getPollStats s p fl).1 = repoGetPollStats s p) ∧
    ((getPollStats (getPollStats s p fl).2 p fl').1 = (getPollStats s p fl).1 ∧
        ((getPollStats s p fl).2).votes = s.votes) ∧
    ((getCachedPollStats s p = .error .notFound ∨
        getCachedPollStats s p = .ok (repoGetPollStats s p)) →
        (getPollStats s p fl).1 = getPollStatsNoCache s p) := by
  refine ⟨?_, ?_, ?_⟩
  · intro hc
    unfold getPollStats
    rw [hc]
  · cases hc : getCachedPollStats s p with
    | ok st =>
      have h1 : getPollStats s p fl = (st, s) := by
        unfold getPollStats
        rw [hc]
      have h2 : getPollStats s p fl' = (st, s) := by
        unfold getPollStats
        rw [hc]
      rw [h1, h2]
      exact ⟨rfl, rfl⟩
    | error e =>
      cases hf : fl.cacheFails with
      | true =>
        have h1 : getPollStats s p fl = (repoGetPollStats s p, s) := by
          unfold getPollStats
          rw [hc]
          simp [hf]
        have h2 : (getPollStats s p fl').1 = repoGetPollStats s p := by
          unfold getPollStats
          rw [hc]
        rw [h1]
        exact ⟨h2, rfl⟩
      | false =>
        have h1 : getPollStats s p fl =
            (repoGetPollStats s p,
             setCachedPollStats s p (repoGetPollStats s p)) := by
          unfold getPollStats
          rw [hc]
          simp [hf]
        have h2 : (getPollStats (setCachedPollStats s p (repoGetPollStats s p))
            p fl').1 = repoGetPollStats s p := by
          unfold getPollStats
          rw [getCached_set_self]
        rw [h1]
        exact ⟨h2, rfl⟩
  · intro hc
    unfold getPollStats getPollStatsNoCache
    rcases hc with hc | hc <;> rw [hc]

/-- C8 witness: on the warm coherent store the cached read equals the
cache-disabled read, and on the cold store the computed fresh aggregate is
returned. -/
theorem getPollStats_cache_transparent_witness :
    (getPollStats storeWarm 1 noFail).1 = getPollStatsNoCache storeWarm 1 ∧
    (getPollStats store0 1 noFail).1 = repoGetPollStats store0 1 :=
  ⟨(getPollStats_cache_transparent storeWarm 1 noFail noFail).2.2
      (Or.inr (by rfl)),
   (getPollStats_cache_transparent store0 1 noFail noFail).1 (by rfl)⟩

/-! ### Counter-store lemmas -/

theorem redisFind_setEntry_self (r : Redis) (k : Str) (e : REntry) :
    redisFind (redisSetEntry r k e) k = some e := by
  unfold redisFind redisSetEntry
  rw [List.find?_cons_of_pos _ (by simp)]
  rfl

theorem find?_filter_ne_key (r : Redis) (k k' : Str) (h : ¬k' = k) :
    (r.filter (fun x => x.1 != k)).find? (fun x => x.1 == k') =
      r.find? (fun x => x.1 == k') := by
  induction r with
  | nil => rfl
  | cons a t ih =>
    rw [List.filter_cons]
    by_cases ha : a.1 = k
    · have h2 : ¬(a.1 == k') = true := by
        simp only [beq_iff_eq]
        rw [ha]
        exact fun hh => h hh.symm
      simp only [ha, bne_self_eq_false, Bool.false_eq_true, if_false]
      rw [List.find?_cons_of_neg t h2]
      exact ih
    · have h1 : (a.1 != k) = true := by simp [ha]
      rw [h1, if_pos rfl]
      by_cases hk : a.1 = k'
      · rw [List.find?_cons_of_pos _ (by simp [hk]),
          List.find?_cons_of_pos _ (by simp [hk])]
      · rw [List.find?_cons_of_neg _ (by simp [hk]),
          List.find?_cons_of_neg _ (by simp [hk])]
        exact ih

theorem redisFind_setEntry_other (r : Redis) (k k' : Str) (e : REntry)
    (h : ¬k' = k) : redisFind (redisSetEntry r k e) k' = redisFind r k' := by
  unfold redisFind redisSetEntry
  rw [List.find?_cons_of_neg _
      (by simp only [beq_iff_eq]; exact fun hh => h hh.symm),
    find?_filter_ne_key r k k' h]

theorem redisGet_setEntry_other (r : Redis) (now : Int) (k k' : Str)
    (e : REntry) (h : ¬k' = k) :
    redisGet (redisSetEntry r k e) now k' = redisGet r now k' := by
  unfold redisGet
  rw [redisFind_setEntry_other r k k' e h]

/-- After INCR the key reads back as old-value-plus-one (a missing or
expired key counting as zero). -/
theorem redisGet_incr_self (r : Redis) (now : Int) (k : Str) :
    redisGet (redisIncr r now k).2 now k =
      some ((redisGet r now k).getD 0 + 1) := by
  unfold redisIncr
  cases hf : redisFind r k with
  | none =>
    simp only
    unfold redisGet
    rw [redisFind_setEntry_self, hf]
    rfl
  | some e =>
    cases he : e.expiresAt with
    | none =>
      simp only [he]
      unfold redisGet
      rw [redisFind_setEntry_self, hf]
      simp [he]
    | some texp =>
      simp only [he]
      by_cases ht : texp ≤ now
      · rw [if_pos ht]
        unfold redisGet
        rw [redisFind_setEntry_self, hf]
        simp [he, ht]
      · rw [if_neg ht]
        unfold redisGet
        rw [redisFind_setEntry_self, hf]
        simp [he, ht]

/-- INCR leaves every other key unchanged. -/
theorem redisGet_incr_other (r : Redis) (now : Int) (k k' : Str)
    (h : ¬k' = k) :
    redisGet (redisIncr r now k).2 now k' = redisGet r now k' := by
  unfold redisIncr
  repeat' split
  all_goals exact redisGet_setEntry_other r now k k' _ h

/-- A SET value with positive TTL reads back immediately. -/
theorem redisGet_set_self (r : Redis) (now : Int) (k : Str) (v ttl : Int)
    (h : 0 < ttl) : redisGet (redisSet r now k v ttl) now k = some v := by
  unfold redisSet redisGet
  rw [redisFind_setEntry_self]
  simp only
  rw [if_neg (by omega)]

theorem rateWindowKey_ne_countKey (user path : Str) :
    ¬rateWindowKey user path = rateCountKey user path := by
  intro h
  unfold rateWindowKey rateCountKey at h
  have h2 : (":window".data : List Char) = ":count".data :=
    List.append_cancel_left h
  have h3 : (":window".data : List Char).length = (":count".data).length :=
    congrArg List.length h2
  have h4 : (":window".data : List Char).length = 7 := by decide
  have h5 : ((":count".data : List Char)).length = 6 := by decide
  omega

theorem rateCountKey_ne_windowKey (user path : Str) :
    ¬rateCountKey user path = rateWindowKey user path := by
  intro h
  exact rateWindowKey_ne_countKey user path h.symm

theorem redisGet_set_other (r : Redis) (now : Int) (k k' : Str) (v ttl : Int)
    (h : ¬k' = k) : redisGet (redisSet r now k v ttl) now k' = redisGet r now k' := by
  unfold redisSet
  exact redisGet_setEntry_other r now k k' _ h

/-- Normal form of the sustained limiter on a non-exempt path with a
healthy counter store. -/
theorem rateLimit_normal (r : Redis) (now count0 window0 : Int)
    (user path : Str) (hex : isExemptPath path = false)
    (hc0 : (redisGet r now (rateCountKey user path)).getD 0 = count0)
    (hw0 : (redisGet r now (rateWindowKey user path)).getD now = window0) :
    rateLimit r now user path false false =
      (let count := if DefaultRateWindow ≤ now - window0 then 0 else count0
       let window := if DefaultRateWindow ≤ now - window0 then now else window0
       if DefaultRateLimit ≤ count then (⟨.reject, []⟩, r)
       else
         (⟨.next,
           [("X-RateLimit-Limit", DefaultRateLimit),
            ("X-RateLimit-Remaining", DefaultRateLimit - count - 1),
            ("X-RateLimit-Reset", window + DefaultRateWindow)]⟩,
          redisSet (redisIncr r now (rateCountKey user path)).2 now
            (rateWindowKey user path) window DefaultCleanupWindow)) := by
  unfold rateLimit
  simp only [hex, Bool.false_eq_true, if_false, hc0, hw0]

/-- C4 amended: on each non-exempt request the sustained limiter reads the
stored window start and count; when the window has expired it resets only
the values used for this request's check (count 0, window now) — the
persisted count is not cleared, the subsequent INCR applies on top of the
previously stored value — and it always admits that first request after
expiry; when the window is current it rejects with no reset-time metadata
(limit/remaining/reset headers are attached only to admitted requests) if
the count is at the ceiling, and otherwise increments the persisted count,
persists the window start with an expiry (3600s) longer than the window
(60s), attaches limit/remaining/reset headers, and admits. -/
theorem rateLimit_fixed_window (r : Redis) (now count0 window0 : Int)
    (user path : Str) (hex : isExemptPath path = false)
    (hc0 : (redisGet r now (rateCountKey user path)).getD 0 = count0)
    (hw0 : (redisGet r now (rateWindowKey user path)).getD now = window0) :
    (DefaultRateWindow ≤ now - window0 →
        (rateLimit r now user path false false).1.decision = .next ∧
        (rateLimit r now user path false false).1.headers =
          [("X-RateLimit-Limit", DefaultRateLimit),
           ("X-RateLimit-Remaining", DefaultRateLimit - 0 - 1),
           ("X-RateLimit-Reset", now + DefaultRateWindow)] ∧
        redisGet (rateLimit r now user path false false).2 now
          (rateCountKey user path) = some (count0 + 1) ∧
        redisGet (rateLimit r now user path false false).2 now
          (rateWindowKey user path) = some now) ∧
    (now - window0 < DefaultRateWindow → DefaultRateLimit ≤ count0 →
        (rateLimit r now user path false false).1.decision = .reject ∧
        (rateLimit r now user path false false).1.headers = [] ∧
        (rateLimit r now user path false false).2 = r) ∧
    (now - window0 < DefaultRateWindow → count0 < DefaultRateLimit →
        (rateLimit r now user path false false).1.decision = .next ∧
        (rateLimit r now user path false false).1.headers =
          [("X-RateLimit-Limit", DefaultRateLimit),
           ("X-RateLimit-Remaining", DefaultRateLimit - count0 - 1),
           ("X-RateLimit-Reset", window0 + DefaultRateWindow)] ∧
        redisGet (rateLimit r now user path false false).2 now
          (rateCountKey user path) = some (count0 + 1) ∧
        redisGet (rateLimit r now user path false false).2 now
          (rateWindowKey user path) = some window0) := by
  have hrl := rateLimit_normal r now count0 window0 user path hex hc0 hw0
  refine ⟨?_, ?_, ?_⟩
  · intro hw
    rw [hrl]
    simp only [if_pos hw]
    rw [if_neg (by unfold DefaultRateLimit; omega)]
    refine ⟨rfl, rfl, ?_, ?_⟩
    · rw [redisGet_set_other _ _ _ _ _ _ (rateCountKey_ne_windowKey user path),
        redisGet_incr_self, hc0]
    · rw [redisGet_set_self _ _ _ _ _
        (by unfold DefaultCleanupWindow; omega)]
  · intro hw hq
    rw [hrl]
    simp only [if_neg (by omega : ¬DefaultRateWindow ≤ now - window0)]
    rw [if_pos hq]
    exact ⟨rfl, rfl, rfl⟩
  · intro hw hq
    rw [hrl]
    simp only [if_neg (by omega : ¬DefaultRateWindow ≤ now - window0)]
    rw [if_neg (by omega : ¬DefaultRateLimit ≤ count0)]
    refine ⟨rfl, rfl, ?_, ?_⟩
    · rw [redisGet_set_other _ _ _ _ _ _ (rateCountKey_ne_windowKey user path),
        redisGet_incr_self, hc0]
    · rw [redisGet_set_self _ _ _ _ _
        (by unfold DefaultCleanupWindow; omega)]

/-- C4 counterexample: at an expired window holding a persisted count of
1000 the limiter admits the request but the persisted count becomes 1001 —
it is not reset to 0 as the claim states (a reset-then-increment would
leave 1); and a rejection (current window, count at ceiling) carries no
reset-time metadata: the 429 response has no headers at all. -/
theorem rateLimit_persisted_reset_counterexample :
    (rateLimit staleR 100 exUser exVotePath false false).1.decision = .next ∧
    redisGet (rateLimit staleR 100 exUser exVotePath false false).2 100
      (rateCountKey exUser exVotePath) = some 1001 ∧
    (some (1001 : Int) ≠ some (1 : Int)) ∧
    (rateLimit freshR 10 exUser exVotePath false false).1.decision = .reject ∧
    (rateLimit freshR 10 exUser exVotePath false false).1.headers = [] := by
  refine ⟨by rfl, by rfl, by decide, by rfl, by rfl⟩

/-- C4 witness: the amended characterization applied at the concrete
expired-window store: the first request after expiry is admitted and the
persisted count lands at 1001 = 1000 + 1. -/
theorem rateLimit_fixed_window_witness :
    (rateLimit staleR 100 exUser exVotePath false false).1.decision = .next ∧
    redisGet (rateLimit staleR 100 exUser exVotePath false false).2 100
      (rateCountKey exUser exVotePath) = some (1000 + 1) := by
  have h := (rateLimit_fixed_window staleR 100 1000 0 exUser exVotePath
    (by decide) (by decide) (by decide)).1 (by decide)
  exact ⟨h.1, h.2.2.1⟩

/-- C6 counterexample: a failure of the INCR/SET update pipeline during the
sustained-rate check does not fail closed — the request is admitted (the
error is only logged) with the store unchanged. -/
theorem rateLimit_update_failure_admits :
    (rateLimit [] 0 exUser exVotePath false true).1.decision = .next ∧
    (rateLimit [] 0 exUser exVotePath false true).1.decision ≠ .internalError ∧
    (rateLimit [] 0 exUser exVotePath false true).2 = [] := by
  refine ⟨by rfl, by decide, by rfl⟩

/-- C6 amended: the admission controller fails closed (internal error, no
admission, store untouched) when the sustained limiter's state read fails
or when the burst counter increment fails; but a failure of the sustained
limiter's count/window update, or of the burst expiry set, is only logged:
the decision is the same as with a healthy store (the request may well be
admitted), the sustained limiter's store state simply stays unchanged. -/
theorem admission_failure_policy (r : Redis) (now : Int) (user path : Str)
    (hex : isExemptPath path = false) :
    (∀ updFails,
        (rateLimit r now user path true updFails).1.decision = .internalError ∧
        (rateLimit r now user path true updFails).2 = r) ∧
    (∀ expireFails,
        (burstLimit r now user path true expireFails).1.decision = .internalError ∧
        (burstLimit r now user path true expireFails).2 = r) ∧
    ((rateLimit r now user path false true).1.decision =
        (rateLimit r now user path false false).1.decision ∧
     (rateLimit r now user path false true).2 = r) ∧
    ((burstLimit r now user path false true).1.decision =
        (burstLimit r now user path false false).1.decision) := by
  refine ⟨?_, ?_, ?_, ?_⟩
  · intro updFails
    unfold rateLimit
    simp only [hex, Bool.false_eq_true, if_false]
    exact ⟨rfl, rfl⟩
  · intro expireFails
    unfold burstLimit
    simp only [hex, Bool.false_eq_true, if_false]
    exact ⟨rfl, rfl⟩
  · unfold rateLimit
    simp only [hex, Bool.false_eq_true, if_false, if_true]
    constructor
    · split
      · split
        · rfl
        · rfl
      · split
        · rfl
        · rfl
    · split
      · split
        · rfl
        · rfl
      · split
        · rfl
        · rfl
  · unfold burstLimit
    simp only [hex, Bool.false_eq_true, if_false]
    rcases hi : redisIncr r now (burstKey user path) with ⟨v, r1⟩
    simp only [hi]
    split
    · rfl
    · rfl

/-- C6 witness: fail-closed on a read failure at a concrete store, and the
logged-only update failure at the same store. -/
theorem admission_failure_policy_witness :
    (rateLimit [] 0 exUser exVotePath true false).1.decision = .internalError ∧
    (rateLimit [] 0 exUser exVotePath false true).2 = ([] : Redis) :=
  ⟨((admission_failure_policy [] 0 exUser exVotePath (by decide)).1 false).1,
   ((admission_failure_policy [] 0 exUser exVotePath (by decide)).2.2.1).2⟩

theorem redisFind_single_self (k : Str) (e : REntry) :
    redisFind [(k, e)] k = some e := by
  unfold redisFind
  rw [List.find?_cons_of_pos _ (by simp)]
  rfl

theorem redisSetEntry_single (k : Str) (e e' : REntry) :
    redisSetEntry [(k, e)] k e' = [(k, e')] := by
  unfold redisSetEntry
  simp

/-- First burst-limited request of a window: counter created at 1, expiry
set one second ahead, request admitted. -/
theorem burstLimit_first (user path : Str) (hex : isExemptPath path = false)
    (t : Int) :
    burstLimit [] t user path false false =
      (⟨.next,
        [("X-BurstLimit-Limit", DefaultBurstLimit),
         ("X-BurstLimit-Remaining", DefaultBurstLimit - 1)]⟩,
       [(burstKey user path, ⟨1, some (t + 1)⟩)]) := by
  unfold burstLimit
  simp only [hex, Bool.false_eq_true, if_false]
  have hi : redisIncr [] t (burstKey user path) =
      (1, [(burstKey user path, ⟨1, none⟩)]) := rfl
  rw [hi]
  have hexp : redisExpire [(burstKey user path, ⟨1, none⟩)] t
      (burstKey user path) 1 = [(burstKey user path, ⟨1, some (t + 1)⟩)] := by
    unfold redisExpire
    rw [redisFind_single_self]
    simp [redisSetEntry_single]
  simp [hexp, DefaultBurstLimit]

/-- A later burst-limited request inside a live window: the counter is
atomically incremented, its expiry untouched, and the request is rejected
exactly when the post-increment value exceeds the ceiling. -/
theorem burstLimit_step (user path : Str) (hex : isExemptPath path = false)
    (t : Int) (n : Int) (hn : 1 ≤ n) :
    burstLimit [(burstKey user path, ⟨n, some (t + 1)⟩)] t user path
        false false =
      (⟨if DefaultBurstLimit < n + 1 then .reject else .next,
        if DefaultBurstLimit < n + 1 then []
        else [("X-BurstLimit-Limit", DefaultBurstLimit),
              ("X-BurstLimit-Remaining", DefaultBurstLimit - (n + 1))]⟩,
       [(burstKey user path, ⟨n + 1, some (t + 1)⟩)]) := by
  unfold burstLimit
  simp only [hex, Bool.false_eq_true, if_false]
  have hi : redisIncr [(burstKey user path, ⟨n, some (t + 1)⟩)] t
      (burstKey user path) =
      (n + 1, [(burstKey user path, ⟨n + 1, some (t + 1)⟩)]) := by
    unfold redisIncr
    rw [redisFind_single_self]
    simp only
    rw [if_neg (by omega), redisSetEntry_single]
  rw [hi]
  have hv1 : ((n + 1 : Int) == 1) = false := by
    rw [beq_eq_false_iff_ne]
    omega
  simp only [hv1, Bool.false_and, Bool.false_eq_true, if_false]
  by_cases h5 : DefaultBurstLimit < n + 1
  · simp [h5]
  · simp [h5]

/-- Closed form of `n + 1` consecutive same-second burst requests starting
from an empty window. -/
theorem burstSteps_closed (user path : Str) (hex : isExemptPath path = false)
    (t : Int) : ∀ m : Nat,
    burstSteps [] t user path (m + 1) =
      [(burstKey user path, ⟨(m : Int) + 1, some (t + 1)⟩)] := by
  intro m
  induction m with
  | zero =>
    show (burstLimit (burstSteps [] t user path 0) t user path false false).2 = _
    rw [show burstSteps [] t user path 0 = [] from rfl,
      burstLimit_first user path hex t]
    norm_num
  | succ k ih =>
    show (burstLimit (burstSteps [] t user path (k + 1)) t user path
      false false).2 = _
    rw [ih, burstLimit_step user path hex t ((k : Int) + 1) (by omega)]
    push_cast
    ring_nf

/-- C7: on a non-exempt route the burst limiter performs one atomic INCR
of the per-(user, route) counter, sets the one-second expiry exactly on
the increment that takes the counter to 1, and rejects exactly when the
post-increment value exceeds the ceiling (500) — so of 501 requests issued
within one second from an empty window, the first 500 are admitted and the
501st is rejected. -/
theorem burst_limit_behavior (r : Redis) (t : Int) (user path : Str)
    (hex : isExemptPath path = false) :
    (∀ v r', redisIncr r t (burstKey user path) = (v, r') →
        ((burstLimit r t user path false false).1.decision = .reject ↔
          DefaultBurstLimit < v)) ∧
    (∀ v r', redisIncr r t (burstKey user path) = (v, r') →
        (burstLimit r t user path false false).2 =
          if v = 1 then redisExpire r' t (burstKey user path) 1 else r') ∧
    (∀ k : Nat, 1 ≤ k → k ≤ 500 →
        (burstLimit (burstSteps [] t user path (k - 1)) t user path
          false false).1.decision = .next) ∧
    (burstLimit (burstSteps [] t user path 500) t user path
        false false).1.decision = .reject := by
  refine ⟨?_, ?_, ?_, ?_⟩
  · intro v r' hi
    unfold burstLimit
    simp only [hex, Bool.false_eq_true, if_false, hi]
    by_cases h5 : DefaultBurstLimit < v
    · simp [h5]
    · simp [h5]
  · intro v r' hi
    unfold burstLimit
    simp only [hex, Bool.false_eq_true, if_false, hi]
    by_cases h1 : v = 1
    · subst h1
      simp [DefaultBurstLimit]
    · have h1' : ((v : Int) == 1) = false := by
        rw [beq_eq_false_iff_ne]
        exact h1
      simp only [h1', Bool.false_and, Bool.false_eq_true, if_false, if_neg h1]
      split
      · rfl
      · rfl
  · intro k hk1 hk500
    cases k with
    | zero => exact absurd hk1 (by omega)
    | succ j =>
      show (burstLimit (burstSteps [] t user path j) t user path
        false false).1.decision = Decision.next
      cases j with
      | zero =>
        rw [show burstSteps [] t user path 0 = [] from rfl,
          burstLimit_first user path hex t]
      | succ m =>
        rw [burstSteps_closed user path hex t m,
          burstLimit_step user path hex t ((m : Int) + 1) (by omega)]
        have hm : ¬DefaultBurstLimit < (m : Int) + 1 + 1 := by
          unfold DefaultBurstLimit
          omega
        simp [hm]
  · show (burstLimit (burstSteps [] t user path (499 + 1)) t user path
      false false).1.decision = Decision.reject
    rw [burstSteps_closed user path hex t 499,
      burstLimit_step user path hex t (((499 : Nat) : Int) + 1) (by omega)]
    simp [DefaultBurstLimit]

/-- C7 witness: request 500 admitted, request 501 rejected, at a concrete
user and non-exempt route within one second. -/
theorem burst_limit_behavior_witness :
    (burstLimit (burstSteps [] 0 exUser exVotePath (500 - 1)) 0 exUser
        exVotePath false false).1.decision = .next ∧
    (burstLimit (burstSteps [] 0 exUser exVotePath 500) 0 exUser exVotePath
        false false).1.decision = .reject := by
  have h := burst_limit_behavior [] 0 exUser exVotePath (by decide)
  exact ⟨h.2.2.1 500 (by norm_num) (by norm_num), h.2.2.2⟩

/-- C9: every request whose path is the public poll-statistics read path
`/api/polls/{id}/stats` is passed through by both limiters before any
counter-store access: whatever the per-user counter state, the decision is
the exempt pass-through, no headers are attached, and the store is
returned unchanged — so such requests are admitted at unlimited volume. -/
theorem stats_path_exempt_from_limiters (pollId : Str) (r : Redis)
    (now : Int) (user : Str) (gf uf bf ef : Bool) :
    isExemptPath ("/api/polls/".data ++ pollId ++ "/stats".data) = true ∧
    rateLimit r now user ("/api/polls/".data ++ pollId ++ "/stats".data)
      gf uf = (⟨.nextExempt, []⟩, r) ∧
    burstLimit r now user ("/api/polls/".data ++ pollId ++ "/stats".data)
      bf ef = (⟨.nextExempt, []⟩, r) := by
  have hex : isExemptPath ("/api/polls/".data ++ pollId ++ "/stats".data)
      = true := by
    unfold isExemptPath
    rw [Bool.and_eq_true]
    constructor
    · rw [ List.isPrefixOf_iff_prefix]
      exact ⟨pollId ++ "/stats".data, by simp⟩
    · rw [List.isSuffixOf_iff_suffix]
      exact ⟨"/api/polls/".data ++ pollId, by simp⟩
  refine ⟨hex, ?_, ?_⟩
  · unfold rateLimit
    rw [if_pos hex]
  · unfold burstLimit
    rw [if_pos hex]

end VoteEngine
